import Mathlib

/-!
Verification of the registration-checker program (src/main.go) against its
specification.  The Go source is shallowly embedded: pure functions become
Lean functions; the HTTP client, the file system and the Slack webhook become
explicit oracles supplied to the orchestration loop; Go's `int` becomes `Int`.
-/

/-- The `location` sub-record of a team, as in the Go struct `Team.Location`. -/
structure Location where
  city : String
  region : String
  country : String
  postcode : String
deriving Repr, DecidableEq

/-- `Team` represents an individual team in the response (Go struct `Team`). -/
structure Team where
  id : Int
  number : String
  team_name : String
  robot_name : String
  organization : String
  location : Location
  registered : Bool
deriving Repr, DecidableEq

/-- `APIResponse` represents the overall structure of the API response
(Go struct `APIResponse`); `total` is the `meta.total` field. -/
structure APIResponse where
  total : Int
  data : List Team
deriving Repr, DecidableEq

/-- The step function of the loop `for _, team := range currTeams { currMap[team.ID] = team }`:
inserting one team into the identifier-indexed map, the new entry overriding
any previous one for the same identifier. -/
def insertTeam (m : Int → Option Team) (team : Team) : Int → Option Team :=
  fun k => if k = team.id then some team else m k

/-- The map `currMap` built by `findMissingTeams` from the comparison slice:
a Go `map[int]Team` embedded as a function `Int → Option Team`, entries
inserted left to right so that for duplicate identifiers the last one wins. -/
def buildCurrMap (currTeams : List Team) : Int → Option Team :=
  currTeams.foldl insertTeam (fun _ => none)

/-- `findMissingTeams` compares two slices of teams and finds any missing in
the current data (Go `findMissingTeams`): it keeps, in order, every team of
`prevTeams` whose identifier has no entry in `currMap`. -/
def findMissingTeams (prevTeams currTeams : List Team) : List Team :=
  let currMap := buildCurrMap currTeams
  prevTeams.filter (fun team => (currMap team.id).isNone)

/-- Generalized accumulator lemma: a key is unmapped after folding `insertTeam`
over a list iff it was unmapped before and no list element carries it. -/
theorem foldl_insertTeam_eq_none (curr : List Team) (m : Int → Option Team) (k : Int) :
    (curr.foldl insertTeam m) k = none ↔ (m k = none ∧ ∀ c ∈ curr, c.id ≠ k) := by
  induction curr generalizing m with
  | nil => simp
  | cons a l ih =>
    rw [List.foldl_cons, ih]
    constructor
    · rintro ⟨hm, hl⟩
      unfold insertTeam at hm
      by_cases hk : k = a.id
      · simp [hk] at hm
      · refine ⟨?_, ?_⟩
        · simpa [hk] using hm
        · intro c hc
          rcases List.mem_cons.mp hc with hc | hc
          · subst hc; exact fun h => hk h.symm
          · exact hl c hc
    · rintro ⟨hm, hall⟩
      have hka : a.id ≠ k := hall a (by simp)
      refine ⟨?_, fun c hc => hall c (List.mem_cons_of_mem _ hc)⟩
      unfold insertTeam
      simp only [hm]
      rw [if_neg (fun hk => hka hk.symm)]

/-- A key is unmapped in `buildCurrMap curr` iff no team of `curr` carries it. -/
theorem buildCurrMap_eq_none (curr : List Team) (k : Int) :
    buildCurrMap curr k = none ↔ ∀ c ∈ curr, c.id ≠ k := by
  rw [buildCurrMap, foldl_insertTeam_eq_none]
  simp

/-- The membership predicate used by `findMissingTeams` agrees with direct
absence of the identifier from the comparison list. -/
theorem findMissingTeams_pred (curr : List Team) (t : Team) :
    ((buildCurrMap curr t.id).isNone) = decide (∀ c ∈ curr, c.id ≠ t.id) := by
  rcases h : buildCurrMap curr t.id with _ | u
  · have := (buildCurrMap_eq_none curr t.id).mp h
    simp only [Option.isNone_none]
    exact (decide_eq_true this).symm
  · have : ¬ (buildCurrMap curr t.id = none) := by simp [h]
    rw [buildCurrMap_eq_none] at this
    simp only [Option.isNone_some]
    exact (decide_eq_false this).symm

/-- `findMissingTeams` is the filter of the previous list by absence of the
identifier from the comparison list. -/
theorem findMissingTeams_eq_filter (prev curr : List Team) :
    findMissingTeams prev curr =
      prev.filter (fun t => decide (∀ c ∈ curr, c.id ≠ t.id)) := by
  unfold findMissingTeams
  exact List.filter_congr (fun t _ => findMissingTeams_pred curr t)

/-- C2: `findMissingTeams(previous, current)` returns exactly those entities of
`previous` whose identifier does not occur among the identifiers of `current`,
in the relative order of `previous`: it is the order-preserving filter of
`previous` by that predicate, and in particular a sublist of `previous`. -/
theorem findMissingTeams_spec (prev curr : List Team) :
    findMissingTeams prev curr =
      prev.filter (fun t => decide (∀ c ∈ curr, c.id ≠ t.id)) ∧
    List.Sublist (findMissingTeams prev curr) prev := by
  refine ⟨findMissingTeams_eq_filter prev curr, ?_⟩
  rw [findMissingTeams_eq_filter]
  exact List.filter_sublist prev

/-- C8: an empty comparison set yields the entire previous snapshot as missing,
unchanged and in order. -/
theorem findMissingTeams_empty_comparison (X : List Team) (h : X ≠ []) :
    findMissingTeams X [] = X := by
  rw [findMissingTeams_eq_filter]
  simp

/-- Witness for C8 at a concrete non-empty snapshot. -/
theorem findMissingTeams_empty_comparison_witness :
    findMissingTeams [⟨1, "A", "", "", "", ⟨"", "", "", ""⟩, true⟩] [] =
      [⟨1, "A", "", "", "", ⟨"", "", "", ""⟩, true⟩] :=
  findMissingTeams_empty_comparison _ (by decide)

/-- A concrete team with identifier 1 and display number "A". -/
def teamA : Team := ⟨1, "A", "Alpha", "", "Org A", ⟨"", "", "", ""⟩, true⟩

/-- A concrete team with identifier 2 and display number "B". -/
def teamB : Team := ⟨2, "B", "Beta", "", "Org B", ⟨"", "", "", ""⟩, true⟩

/-- A second concrete team sharing identifier 2 (a duplicate-key payload). -/
def teamB2 : Team := ⟨2, "B2", "Beta prime", "", "Org B2", ⟨"", "", "", ""⟩, false⟩

/-- Folding `insertTeam` over a list none of whose teams carry key `k` leaves
the map unchanged at `k`. -/
theorem foldl_insertTeam_no_occurrence (l : List Team) (m : Int → Option Team) (k : Int)
    (h : ∀ c ∈ l, c.id ≠ k) : (l.foldl insertTeam m) k = m k := by
  induction l generalizing m with
  | nil => rfl
  | cons a tl ih =>
    rw [List.foldl_cons, ih _ (fun c hc => h c (List.mem_cons_of_mem _ hc))]
    unfold insertTeam
    rw [if_neg (fun hk => h a (by simp) hk.symm)]

/-- In the identifier-indexed map, the last occurrence of a key wins. -/
theorem buildCurrMap_last_occurrence (l₁ l₂ : List Team) (t : Team)
    (hlast : ∀ c ∈ l₂, c.id ≠ t.id) :
    buildCurrMap (l₁ ++ t :: l₂) t.id = some t := by
  unfold buildCurrMap
  rw [List.foldl_append, List.foldl_cons,
    foldl_insertTeam_no_occurrence l₂ _ t.id hlast]
  unfold insertTeam
  rw [if_pos rfl]

/-- Counting an element that satisfies the predicate is unchanged by filtering. -/
theorem count_filter_of_pos {α : Type} [DecidableEq α] (l : List α) (p : α → Bool) (t : α)
    (ht : p t = true) : (l.filter p).count t = l.count t := by
  induction l with
  | nil => rfl
  | cons a tl ih =>
    by_cases hat : a = t
    · subst hat
      rw [List.filter_cons, if_pos ht, List.count_cons_self, ih, List.count_cons_self]
    · rw [List.filter_cons, List.count_cons_of_ne (fun h => hat h.symm)]
      by_cases hpa : p a = true
      · rw [if_pos hpa, List.count_cons_of_ne (fun h => hat h.symm), ih]
      · rw [if_neg hpa, ih]

/-- C9: when the comparison set holds several entities with the same identifier,
the identifier-indexed lookup maps that identifier to the last-occurring
entity; membership testing is unaffected: an entity of the previous sequence is
excluded from the result exactly when its identifier occurs anywhere in the
comparison set. -/
theorem buildCurrMap_duplicates_spec (prev curr l₁ l₂ : List Team) (t u : Team)
    (hcurr : curr = l₁ ++ t :: l₂) (hlast : ∀ c ∈ l₂, c.id ≠ t.id) (hu : u ∈ prev) :
    buildCurrMap curr t.id = some t ∧
    (u ∉ findMissingTeams prev curr ↔ ∃ c ∈ curr, c.id = u.id) := by
  subst hcurr
  refine ⟨buildCurrMap_last_occurrence l₁ l₂ t hlast, ?_⟩
  rw [findMissingTeams_eq_filter]
  rw [List.mem_filter]
  constructor
  · intro hnot
    by_contra hex
    push_neg at hex
    exact hnot ⟨hu, decide_eq_true (fun c hc => fun he => hex c hc he)⟩
  · rintro ⟨c, hc, hce⟩ ⟨_, hdec⟩
    exact (of_decide_eq_true hdec) c hc hce

/-- Witness for C9: the comparison set `[teamB, teamB2]` repeats identifier 2;
the lookup returns the later entity `teamB2`, and `teamB` (identifier 2) is
excluded from the missing list. -/
theorem buildCurrMap_duplicates_spec_witness :
    buildCurrMap ([teamB] ++ teamB2 :: []) teamB2.id = some teamB2 ∧
    (teamB ∉ findMissingTeams [teamB] ([teamB] ++ teamB2 :: []) ↔
      ∃ c ∈ [teamB] ++ teamB2 :: [], c.id = teamB.id) :=
  buildCurrMap_duplicates_spec [teamB] ([teamB] ++ teamB2 :: []) [teamB] [] teamB2 teamB
    rfl (by simp) (by simp)

/-- C10: when the previous sequence contains several entities with the same
identifier and that identifier is absent from the comparison set, every
occurrence is kept: the count of any such entity is preserved, and the result
is a sublist of the previous sequence (order kept, duplicates never
collapsed). -/
theorem findMissingTeams_keeps_duplicates (prev curr : List Team) (t : Team)
    (h : ∀ c ∈ curr, c.id ≠ t.id) :
    (findMissingTeams prev curr).count t = prev.count t ∧
    List.Sublist (findMissingTeams prev curr) prev := by
  rw [findMissingTeams_eq_filter]
  exact ⟨count_filter_of_pos prev _ t (decide_eq_true h), List.filter_sublist prev⟩

/-- Witness for C10: `teamA` occurs twice in the previous snapshot and its
identifier is absent from the comparison set `[teamB]`; both occurrences are
reported missing. -/
theorem findMissingTeams_keeps_duplicates_witness :
    (findMissingTeams [teamA, teamA] [teamB]).count teamA = [teamA, teamA].count teamA ∧
    List.Sublist (findMissingTeams [teamA, teamA] [teamB]) [teamA, teamA] :=
  findMissingTeams_keeps_duplicates [teamA, teamA] [teamB] teamA (by decide)

/-- One formatted line of the notification body, from the Go loop body
`message += fmt.Sprintf(...)` in `sendSlackMessage`: the team's display
number and organization between backticks, ending in a newline. -/
def teamLine (t : Team) : String :=
  "`" ++ t.number ++ "` - `" ++ t.organization ++ "`\n"

/-- The message composed by `sendSlackMessage` (Go `sendSlackMessage`, lines
135-143) before posting: a "no teams are missing" sentence when the missing
list is empty, otherwise a header followed by the accumulated team lines. -/
def composeSlackMessage (eventName : String) (missingTeams : List Team) : String :=
  if missingTeams.length = 0 then
    "No teams are missing for event " ++ eventName ++ "."
  else
    missingTeams.foldl (fun msg team => msg ++ teamLine team)
      ("*Missing teams for* `" ++ eventName ++ "`:\n\n")

/-- The specification's reference shape for the notification body: exactly one
line per missing entity, in the diff result's order. -/
def specLines : List Team → String
  | [] => ""
  | t :: ts => teamLine t ++ specLines ts

/-- Accumulating team lines by a left fold appends them, in order, to the
initial string. -/
theorem foldl_teamLine (l : List Team) (init : String) :
    l.foldl (fun msg team => msg ++ teamLine team) init = init ++ specLines l := by
  induction l generalizing init with
  | nil => rw [List.foldl_nil, specLines, String.append_empty]
  | cons a tl ih => rw [List.foldl_cons, ih, specLines, String.append_assoc]

/-- C7: the composed notification is the "no teams are missing" sentence
naming the collection when the missing list is empty, and otherwise a header
naming the collection followed by exactly one line per missing entity (its
display number and organization), in the missing list's order. -/
theorem composeSlackMessage_spec (eventName : String) (ts : List Team) :
    (ts = [] → composeSlackMessage eventName ts =
      "No teams are missing for event " ++ eventName ++ ".") ∧
    (ts ≠ [] → composeSlackMessage eventName ts =
      "*Missing teams for* `" ++ eventName ++ "`:\n\n" ++ specLines ts) := by
  constructor
  · intro h; subst h; rfl
  · intro h
    unfold composeSlackMessage
    rw [if_neg (fun hl => h (List.length_eq_zero.mp hl))]
    exact foldl_teamLine ts _

/-- Witness for C7 at an empty and at a singleton missing list. -/
theorem composeSlackMessage_spec_witness :
    composeSlackMessage "Ev" [] = "No teams are missing for event " ++ "Ev" ++ "." ∧
    composeSlackMessage "Ev" [teamB] =
      "*Missing teams for* `" ++ "Ev" ++ "`:\n\n" ++ specLines [teamB] :=
  ⟨(composeSlackMessage_spec "Ev" []).1 rfl,
   (composeSlackMessage_spec "Ev" [teamB]).2 (by decide)⟩

/-- Outcome of one HTTP round trip whose body decodes to a `β`: either the
request construction or transport fails before a response is read (Go
`http.NewRequest` or `client.Do` returning an error), or a response arrives
carrying a status code and a body that either decodes (`some`) or is
malformed (`none`, Go `json.Decode` returning an error). -/
inductive HTTPOutcome (β : Type) where
  | transportError
  | response (statusCode : Nat) (payload : Option β)

/-- `fetchTeams` fetches the teams for a given event ID and parses the
response (Go `fetchTeams`), given the outcome of its single round trip: a
transport error or a decode failure is returned as an error; the HTTP status
code is never inspected. -/
def fetchTeams (o : HTTPOutcome APIResponse) : Except Unit APIResponse :=
  match o with
  | .transportError => .error ()
  | .response _ none => .error ()
  | .response _ (some result) => .ok result

/-- `fetchEventName` (Go `fetchEventName`): same shape as `fetchTeams`,
decoding only the name field; the status code is likewise not inspected. -/
def fetchEventName (o : HTTPOutcome String) : Except Unit String :=
  match o with
  | .transportError => .error ()
  | .response _ none => .error ()
  | .response _ (some eventName) => .ok eventName

/-- Contents of a snapshot file `<eventID>_teams.json`: either bytes that fail
to unmarshal, or a stored `APIResponse`. -/
inductive FileContent where
  | corrupt
  | parsed (resp : APIResponse)

/-- The file system, keyed by event ID (the file name `<eventID>_teams.json`
is determined by the event ID); `none` means the file does not exist. -/
def FS : Type := String → Option FileContent

/-- Result of `loadPreviousTeams` (Go `loadPreviousTeams`): `errNotExist` is a
read error satisfying `os.IsNotExist`; `errOther` is any other read or
unmarshal error. -/
inductive LoadResult where
  | ok (resp : APIResponse)
  | errNotExist
  | errOther

/-- `loadPreviousTeams` reads teams from the saved file specific to an event
(Go `loadPreviousTeams`). -/
def loadPreviousTeams (fs : FS) (eventID : String) : LoadResult :=
  match fs eventID with
  | none => .errNotExist
  | some .corrupt => .errOther
  | some (.parsed prevTeams) => .ok prevTeams

/-- `saveTeams` saves the current teams data to the file specific to an event
(Go `saveTeams`); the oracle says whether the write succeeds. A successful
write replaces the file's contents; a failed write returns `none` and leaves
the file system unchanged. -/
def saveTeams (writeOk : String → Bool) (fs : FS) (eventID : String)
    (teams : APIResponse) : Option FS :=
  if writeOk eventID then
    some (fun k => if k = eventID then some (.parsed teams) else fs k)
  else none

/-- `sendSlackMessage` (Go `sendSlackMessage`): composes the message, posts it
to the webhook, and reports an error on transport failure or on any status
code other than 200. -/
def sendSlackMessage (post : String → HTTPOutcome Unit) (eventName : String)
    (missingTeams : List Team) : Except Unit Unit :=
  match post (composeSlackMessage eventName missingTeams) with
  | .transportError => .error ()
  | .response statusCode _ => if statusCode = 200 then .ok () else .error ()

/-- Go's `strings.Split` restricted to a one-character separator, over the
string's character list: splits at every occurrence of the separator; the
empty string yields one empty field, never an empty list. -/
def splitOnChar (sep : Char) : List Char → List (List Char)
  | [] => [[]]
  | c :: rest =>
    if c = sep then [] :: splitOnChar sep rest
    else
      match splitOnChar sep rest with
      | [] => [[c]]
      | f :: fs => (c :: f) :: fs

/-- `strings.Split(s, ",")` as used on the EVENT_IDS input (src/main.go:175). -/
def goSplitComma (s : String) : List String :=
  (splitOnChar ',' s.data).map (fun cs => String.mk cs)

/-- The run's environment: the configuration values read at startup and the
oracles standing for the network and the file writes. -/
structure Env where
  apiToken : String
  webhookURL : String
  eventIDsRaw : String
  fetchOracle : String → HTTPOutcome APIResponse
  nameOracle : String → HTTPOutcome String
  writeOracle : String → Bool
  slackOracle : String → HTTPOutcome Unit

/-- Terminal outcome of one iteration of the loop over event IDs. -/
inductive Outcome where
  | fetchError
  | loadError
  | saveError
  | firstRun
  | noMissing
  | nameError
  | notifyError
  | notified
deriving Repr, DecidableEq

/-- What one loop iteration produced: its terminal outcome, the missing-team
list it computed (`none` when the diff step was skipped), and the file system
it left behind. -/
structure StepResult where
  outcome : Outcome
  missingComputed : Option (List Team)
  fs : FS

/-- The tail of the loop body after a successful fetch and a load that was not
a genuine error; `prevTeams` is `some` when the previous file loaded and
`none` when it did not exist, exactly as the Go pointer. The diff is taken
against the literal empty slice, as at src/main.go:202 where the current
snapshot argument is commented out. -/
def afterLoad (env : Env) (fs : FS) (eventID : String) (currTeams : APIResponse)
    (prevTeams : Option APIResponse) : StepResult :=
  match saveTeams env.writeOracle fs eventID currTeams with
  | none => ⟨.saveError, none, fs⟩
  | some fs1 =>
    match prevTeams with
    | some prev =>
      if 0 < (findMissingTeams prev.data []).length then
        match fetchEventName (env.nameOracle eventID) with
        | .error _ => ⟨.nameError, some (findMissingTeams prev.data []), fs1⟩
        | .ok eventName =>
          match sendSlackMessage env.slackOracle eventName (findMissingTeams prev.data []) with
          | .error _ => ⟨.notifyError, some (findMissingTeams prev.data []), fs1⟩
          | .ok _ => ⟨.notified, some (findMissingTeams prev.data []), fs1⟩
      else ⟨.noMissing, some (findMissingTeams prev.data []), fs1⟩
    | none => ⟨.firstRun, none, fs1⟩

/-- One iteration of the loop in Go `main` for one event ID. -/
def processEvent (env : Env) (fs : FS) (eventID : String) : StepResult :=
  match fetchTeams (env.fetchOracle eventID) with
  | .error _ => ⟨.fetchError, none, fs⟩
  | .ok currTeams =>
    match loadPreviousTeams fs eventID with
    | .errOther => ⟨.loadError, none, fs⟩
    | .errNotExist => afterLoad env fs eventID currTeams none
    | .ok prev => afterLoad env fs eventID currTeams (some prev)

/-- The loop of Go `main` over the event IDs, threading the file system and
recording each iteration's outcome and computed diff. -/
def runLoop (env : Env) : FS → List String →
    List (String × Outcome × Option (List Team)) × FS
  | fs, [] => ([], fs)
  | fs, eventID :: rest =>
    ((eventID, (processEvent env fs eventID).outcome,
        (processEvent env fs eventID).missingComputed)
      :: (runLoop env (processEvent env fs eventID).fs rest).1,
     (runLoop env (processEvent env fs eventID).fs rest).2)

/-- Go `main`: missing token or webhook URL is fatal before the loop begins;
otherwise the loop runs over `strings.Split(EVENT_IDS, ",")`. -/
def mainRun (env : Env) (fs : FS) :
    Option (List (String × Outcome × Option (List Team)) × FS) :=
  if env.apiToken = "" then none
  else if env.webhookURL = "" then none
  else some (runLoop env fs (goSplitComma env.eventIDsRaw))

/-- The file system with no snapshot file. -/
def fsEmpty : FS := fun _ => none

/-- A file system holding one previous snapshot, `[teamA, teamB]`, for event
ID "123". -/
def fsPrevAB : FS :=
  fun k => if k = "123" then some (.parsed ⟨2, [teamA, teamB]⟩) else none

/-- An environment whose roster fetch returns the snapshot `[teamA]` for every
event ID, with working name resolution, file writes, and webhook. -/
def envHappy : Env :=
  ⟨"tok", "hook", "123",
   fun _ => .response 200 (some ⟨1, [teamA]⟩),
   fun _ => .response 200 (some "Ev"),
   fun _ => true,
   fun _ => .response 200 (some ())⟩

/-- An environment with an empty EVENT_IDS input and a failing transport. -/
def envNoIDs : Env :=
  ⟨"tok", "hook", "",
   fun _ => .transportError,
   fun _ => .transportError,
   fun _ => false,
   fun _ => .transportError⟩

/-- An environment whose roster fetch fails for event ID "123" and succeeds
for every other event ID. -/
def envFetch123Fails : Env :=
  ⟨"tok", "hook", "123,456",
   fun eventID => if eventID = "123" then .transportError
     else .response 200 (some ⟨1, [teamA]⟩),
   fun _ => .response 200 (some "Ev"),
   fun _ => true,
   fun _ => .response 200 (some ())⟩

/-- An environment whose roster fetch succeeds but whose name resolution and
webhook transports always fail. -/
def envNoNotify : Env :=
  ⟨"tok", "hook", "789",
   fun _ => .response 200 (some ⟨1, [teamA]⟩),
   fun _ => .transportError,
   fun _ => true,
   fun _ => .transportError⟩

/-- C1 fails on the code: with the previous snapshot `[teamA, teamB]` on file
and a fresh fetch of `[teamA]`, the loop body computes the diff against the
literal empty slice (src/main.go:202, where the current-snapshot argument is
commented out), reporting both teams missing, whereas the diff against the
fetched current snapshot reports only `teamB`. -/
theorem mainLoop_diff_uses_empty_comparison :
    (processEvent envHappy fsPrevAB "123").missingComputed =
      some (findMissingTeams [teamA, teamB] []) ∧
    findMissingTeams [teamA, teamB] [] = [teamA, teamB] ∧
    findMissingTeams [teamA, teamB] [teamA] = [teamB] ∧
    (processEvent envHappy fsPrevAB "123").missingComputed ≠
      some (findMissingTeams [teamA, teamB] [teamA]) := by
  refine ⟨by decide, by decide, by decide, by decide⟩

/-- Counterexample to C4 as stated: a response with the non-success status 500
and a well-formed payload is returned as a snapshot, not as an error. -/
theorem fetchTeams_ignores_status_counterexample :
    fetchTeams (.response 500 (some ⟨1, [teamB]⟩)) =
      .ok (⟨1, [teamB]⟩ : APIResponse) ∧ (500 : Nat) ≠ 200 :=
  ⟨rfl, by decide⟩

/-- C4 amended: `fetchTeams` returns a snapshot exactly when the round trip
produced a response whose payload decodes, regardless of the status code, and
returns an error exactly on a transport failure or a malformed payload. -/
theorem fetchTeams_error_spec (o : HTTPOutcome APIResponse) :
    ((∃ r, fetchTeams o = .ok r) ↔ ∃ s r, o = .response s (some r)) ∧
    (fetchTeams o = .error () ↔
      o = .transportError ∨ ∃ s, o = .response s none) := by
  cases o with
  | transportError => simp [fetchTeams]
  | response s p => cases p <;> simp [fetchTeams]

/-- Counterexample to C3 as stated: with EVENT_IDS the empty string, the loop
performs one iteration — for the empty-string event ID, whose fetch is
attempted and fails — because `strings.Split` of the empty string yields a
one-element list, never an empty one. -/
theorem emptyEventIDs_counterexample :
    goSplitComma "" = [""] ∧
    (mainRun envNoIDs fsEmpty).map Prod.fst =
      some [("", Outcome.fetchError, none)] ∧
    some [("", Outcome.fetchError, (none : Option (List Team)))] ≠
      some ([] : List (String × Outcome × Option (List Team))) := by
  refine ⟨rfl, by decide, by decide⟩

/-- C3 amended: when EVENT_IDS is empty (and the token and webhook are
present), the run is not fatal and the loop performs exactly one iteration,
processing the empty-string event ID. -/
theorem emptyEventIDs_single_iteration (env : Env) (fs : FS)
    (ht : env.apiToken ≠ "") (hw : env.webhookURL ≠ "")
    (hr : env.eventIDsRaw = "") :
    (mainRun env fs).map (fun p => p.1.map Prod.fst) = some [""] := by
  unfold mainRun
  rw [if_neg ht, if_neg hw, hr]
  rfl

/-- Witness for the amended C3 at a concrete environment. -/
theorem emptyEventIDs_single_iteration_witness :
    (mainRun envNoIDs fsEmpty).map (fun p => p.1.map Prod.fst) = some [""] :=
  emptyEventIDs_single_iteration envNoIDs fsEmpty (by decide) (by decide) rfl

/-- An iteration that ends in a fetch, load, or save error computes no diff
and leaves the file system unchanged. -/
theorem processEvent_error_effects (env : Env) (fs : FS) (eventID : String)
    (h : (processEvent env fs eventID).outcome = .fetchError ∨
         (processEvent env fs eventID).outcome = .loadError ∨
         (processEvent env fs eventID).outcome = .saveError) :
    processEvent env fs eventID =
      ⟨(processEvent env fs eventID).outcome, none, fs⟩ := by
  cases hf : fetchTeams (env.fetchOracle eventID) with
  | error e => simp [processEvent, hf]
  | ok currTeams =>
    cases hl : loadPreviousTeams fs eventID with
    | errOther => simp [processEvent, hf, hl]
    | errNotExist =>
      cases hs : saveTeams env.writeOracle fs eventID currTeams with
      | none => simp [processEvent, afterLoad, hf, hl, hs]
      | some fs1 =>
        exfalso
        simp [processEvent, afterLoad, hf, hl, hs] at h
    | ok prev =>
      cases hs : saveTeams env.writeOracle fs eventID currTeams with
      | none => simp [processEvent, afterLoad, hf, hl, hs]
      | some fs1 =>
        exfalso
        by_cases hm : 0 < (findMissingTeams prev.data []).length
        · cases hn : fetchEventName (env.nameOracle eventID) with
          | error e => simp [processEvent, afterLoad, hf, hl, hs, hm, hn] at h
          | ok nm =>
            cases hsl : sendSlackMessage env.slackOracle nm
                (findMissingTeams prev.data []) with
            | error e =>
              simp [processEvent, afterLoad, hf, hl, hs, hm, hn, hsl] at h
            | ok u =>
              simp [processEvent, afterLoad, hf, hl, hs, hm, hn, hsl] at h
        · simp [processEvent, afterLoad, hf, hl, hs, hm] at h

/-- The loop records exactly one entry per event ID, in order, whatever each
iteration's outcome. -/
theorem runLoop_processes_all (env : Env) (fs : FS) (ids : List String) :
    ((runLoop env fs ids).1.map Prod.fst) = ids := by
  induction ids generalizing fs with
  | nil => rfl
  | cons a l ih =>
    simp only [runLoop, List.map_cons]
    rw [ih]

/-- C5: an error at fetch, at load (other than not-found), or at save ends
that iteration only: the diff is skipped and the file system untouched for
that ID, the loop still records an entry for it and for every later ID in
order, and the remaining IDs are processed exactly as they would be had the
failing ID not been in the list. -/
theorem loop_error_isolation (env : Env) (fs : FS) (eventID : String)
    (rest : List String)
    (h : (processEvent env fs eventID).outcome = .fetchError ∨
         (processEvent env fs eventID).outcome = .loadError ∨
         (processEvent env fs eventID).outcome = .saveError) :
    (processEvent env fs eventID).fs = fs ∧
    (processEvent env fs eventID).missingComputed = none ∧
    (runLoop env fs (eventID :: rest)).1 =
      (eventID, (processEvent env fs eventID).outcome, none)
        :: (runLoop env fs rest).1 ∧
    (runLoop env fs (eventID :: rest)).1.map Prod.fst = eventID :: rest := by
  have he := processEvent_error_effects env fs eventID h
  have hfs : (processEvent env fs eventID).fs = fs := by rw [he]
  have hm : (processEvent env fs eventID).missingComputed = none := by rw [he]
  refine ⟨hfs, hm, ?_, ?_⟩
  · simp only [runLoop, hfs, hm]
  · exact runLoop_processes_all env fs (eventID :: rest)

/-- Witness for C5: the fetch fails for event ID "123" but succeeds for
"456"; "123" ends in a fetch error with the file system untouched, and "456"
is still processed. -/
theorem loop_error_isolation_witness :
    (processEvent envFetch123Fails fsEmpty "123").fs = fsEmpty ∧
    (processEvent envFetch123Fails fsEmpty "123").missingComputed = none ∧
    (runLoop envFetch123Fails fsEmpty ["123", "456"]).1 =
      ("123", (processEvent envFetch123Fails fsEmpty "123").outcome, none)
        :: (runLoop envFetch123Fails fsEmpty ["456"]).1 ∧
    (runLoop envFetch123Fails fsEmpty ["123", "456"]).1.map Prod.fst =
      "123" :: ["456"] :=
  loop_error_isolation envFetch123Fails fsEmpty "123" ["456"] (Or.inl (by decide))

/-- C6: on the first run for an event ID (no snapshot file), a successful
fetch and save end in the first-run outcome: not-found is not an error, the
diff step is skipped, the current snapshot is persisted, and replacing the
name-resolution and webhook transports by always-failing ones changes nothing
— no name resolution or notification is attempted. -/
theorem firstRun_spec (env : Env) (fs : FS) (eventID : String)
    (currTeams : APIResponse)
    (hfetch : fetchTeams (env.fetchOracle eventID) = .ok currTeams)
    (hfile : fs eventID = none)
    (hwrite : env.writeOracle eventID = true) :
    (processEvent env fs eventID).outcome = .firstRun ∧
    (processEvent env fs eventID).missingComputed = none ∧
    (processEvent env fs eventID).fs eventID = some (.parsed currTeams) ∧
    processEvent
      ⟨env.apiToken, env.webhookURL, env.eventIDsRaw, env.fetchOracle,
        fun _ => .transportError, env.writeOracle, fun _ => .transportError⟩
      fs eventID = processEvent env fs eventID := by
  have hload : loadPreviousTeams fs eventID = .errNotExist := by
    simp [loadPreviousTeams, hfile]
  refine ⟨?_, ?_, ?_, ?_⟩ <;>
    simp [processEvent, afterLoad, saveTeams, hfetch, hload, hwrite]

/-- Witness for C6 at a concrete environment with no snapshot file. -/
theorem firstRun_spec_witness :
    (processEvent envNoNotify fsEmpty "789").outcome = .firstRun ∧
    (processEvent envNoNotify fsEmpty "789").missingComputed = none ∧
    (processEvent envNoNotify fsEmpty "789").fs "789" =
      some (.parsed ⟨1, [teamA]⟩) ∧
    processEvent
      ⟨envNoNotify.apiToken, envNoNotify.webhookURL, envNoNotify.eventIDsRaw,
        envNoNotify.fetchOracle, fun _ => .transportError,
        envNoNotify.writeOracle, fun _ => .transportError⟩
      fsEmpty "789" = processEvent envNoNotify fsEmpty "789" :=
  firstRun_spec envNoNotify fsEmpty "789" ⟨1, [teamA]⟩ rfl rfl rfl
